import Mathlib

/-!
Verification development for the MCP agent host runtime:
a shallow embedding of the `mcp` package (host function bridge,
native-process backend, WASM module backend) together with proofs
about its documented behaviour.

Sources embedded:
* `core/agents/mcp/mcp_host_functions.go` — `httpFetch`,
  `writeBytesResult`, `writeStringResult`;
* `core/agents/mcp/mcp_process_native.go` — `MCPNative.callMCPTool`
  response mapping, `cleanupResources_locked`, the process-exit watcher
  in `startProcess_locked`;
* the two iterations of the WASM backend (`MCPWasm`): the pre-compiled
  variant (modelled under namespace `MCPWasmPre`) and the
  compile-per-session variant (namespace `MCPWasmCompile`), each with its
  `callMCPTool` response mapping, `cleanupResources_locked`, and the
  module-exit watcher in `startModule_locked`.
-/

/-! ## Guest memory model (wazero `api.Memory`)

Memory is a flat byte buffer.  `Read(offset, n)` succeeds iff
`offset + n ≤ size` and returns the bytes; `Write(offset, data)` succeeds
iff the range is in bounds and replaces the bytes; `WriteUint32Le` writes
four little-endian bytes.  A failed operation leaves memory unchanged. -/

structure Memory where
  bytes : List Nat
deriving DecidableEq

def Memory.size (m : Memory) : Nat := m.bytes.length

def memRead (m : Memory) (ptr len : Nat) : Option (List Nat) :=
  if ptr + len ≤ m.size then some ((m.bytes.drop ptr).take len) else none

def memWrite (m : Memory) (ptr : Nat) (data : List Nat) : Option Memory :=
  if ptr + data.length ≤ m.size then
    some ⟨m.bytes.take ptr ++ data ++ m.bytes.drop (ptr + data.length)⟩
  else none

/-- Little-endian byte encoding of a 32-bit value. -/
def u32le (v : Nat) : List Nat :=
  [v % 256, v / 256 % 256, v / 65536 % 256, v / 16777216 % 256]

def memWriteU32 (m : Memory) (ptr v : Nat) : Option Memory :=
  memWrite m ptr (u32le (v % 4294967296))

/-- A successful write performed on guest memory, recorded for framing
arguments ("nothing was written"). -/
inductive WriteEvent
  | bytes (ptr : Nat) (data : List Nat)
  | u32 (ptr : Nat) (value : Nat)
deriving DecidableEq

/-! ## `writeBytesResult` / `writeStringResult`

Direct translation of the Go helpers: clamp the write length to the
capacity (truncating if the payload is larger), write the (possibly
truncated) payload, then write the *original* length to the length cell.
Returns `false` only when one of the two memory writes itself fails. -/

def writeBytesResult (m : Memory) (ptr capacity lenPtr : Nat) (result : List Nat) :
    Bool × Memory × List WriteEvent :=
  let resultLen := result.length
  let writeLen := if capacity < resultLen then capacity else resultLen
  if 0 < writeLen then
    match memWrite m ptr (result.take writeLen) with
    | none => (false, m, [])
    | some m1 =>
      match memWriteU32 m1 lenPtr resultLen with
      | none => (false, m1, [WriteEvent.bytes ptr (result.take writeLen)])
      | some m2 =>
        (true, m2, [WriteEvent.bytes ptr (result.take writeLen),
                    WriteEvent.u32 lenPtr resultLen])
  else
    match memWriteU32 m lenPtr resultLen with
    | none => (false, m, [])
    | some m2 => (true, m2, [WriteEvent.u32 lenPtr resultLen])

/-- `writeStringResult` in Go converts the string to bytes and delegates. -/
def writeStringResult (m : Memory) (ptr capacity lenPtr : Nat) (result : List Nat) :
    Bool × Memory × List WriteEvent :=
  writeBytesResult m ptr capacity lenPtr result

/-! ## `httpFetch` -/

/-- The parameters of the `http_fetch` host function (all `uint32`). -/
structure FetchParams where
  urlPtr : Nat
  urlLen : Nat
  methodPtr : Nat
  methodLen : Nat
  bodyPtr : Nat
  bodyLen : Nat
  timeoutMillis : Nat
  resultStatusPtr : Nat
  resultBodyPtr : Nat
  resultBodyCapacity : Nat
  resultBodyLenPtr : Nat
  resultErrorPtr : Nat
  resultErrorCapacity : Nat
  resultErrorLenPtr : Nat
deriving DecidableEq

/-- Outcome of the outbound HTTP request, i.e. the behaviour of
`http.NewRequestWithContext` / `httpClient.Do` / `io.ReadAll` for this
call; an environment input to the embedding. -/
inductive FetchOutcome
  | reqError (msg : List Nat)
  | doError (msg : List Nat)
  | readBodyError (status : Nat) (msg : List Nat)
  | success (status : Nat) (body : List Nat)
deriving DecidableEq

def FetchOutcome.isSuccess : FetchOutcome → Bool
  | .success _ _ => true
  | _ => false

/-- The outbound request as actually performed: resolved method, url,
optional body, and the effective timeout in nanoseconds
(Go `time.Duration`). -/
structure HttpRequest where
  method : List Nat
  url : List Nat
  body : Option (List Nat)
  timeoutNs : Int
deriving DecidableEq

structure FetchResult where
  ret : Nat
  mem : Memory
  writes : List WriteEvent
  request : Option HttpRequest
deriving DecidableEq

/-- ASCII bytes of `"GET"`. -/
def GETbytes : List Nat := [71, 69, 84]

/-- `timeout := time.Duration(timeoutMillis) * time.Millisecond;
if timeout <= 0 { timeout = 30 * time.Second }` — in nanoseconds. -/
def resolveTimeoutNs (timeoutMillis : Nat) : Int :=
  let t : Int := (timeoutMillis : Int) * 1000000
  if t ≤ 0 then 30000000000 else t

def strBytes (s : String) : List Nat := s.toUTF8.toList.map (fun b => b.toNat)

/-- The error message built on the dead-capacity branch of `httpFetch`:
`fmt.Sprintf("response body size (%d) exceeds buffer capacity (%d)", ...)`. -/
def overflowMsg (n cap : Nat) : List Nat :=
  strBytes ("response body size (" ++ toString n ++ ") exceeds buffer capacity ("
    ++ toString cap ++ ")")

/-- The input-reading phase of `httpFetch` (lines 59–90): read url, method
and (when `bodyLen > 0`) body from guest memory, default an empty method
to `"GET"`, resolve the timeout.  `none` means one of the reads failed
and `httpFetch` returns 1 without writing anything. -/
def httpFetchReads (m : Memory) (p : FetchParams) : Option HttpRequest :=
  match memRead m p.urlPtr p.urlLen with
  | none => none
  | some urlBytes =>
    match memRead m p.methodPtr p.methodLen with
    | none => none
    | some methodBytes =>
      let method := if methodBytes = [] then GETbytes else methodBytes
      if 0 < p.bodyLen then
        match memRead m p.bodyPtr p.bodyLen with
        | none => none
        | some bodyBytes =>
          some ⟨method, urlBytes, some bodyBytes, resolveTimeoutNs p.timeoutMillis⟩
      else
        some ⟨method, urlBytes, none, resolveTimeoutNs p.timeoutMillis⟩

/-- The three application-failure branches of `httpFetch`: write the error
message to the error region, the status to the status cell, 0 to the body
length cell; write failures are ignored; return 0. -/
def httpFetchWriteErr (m : Memory) (p : FetchParams) (msg : List Nat) (status : Nat)
    (req : HttpRequest) : FetchResult :=
  let r1 := writeStringResult m p.resultErrorPtr p.resultErrorCapacity p.resultErrorLenPtr msg
  let m1 := r1.2.1
  let evs1 := r1.2.2
  let step2 : Memory × List WriteEvent :=
    match memWriteU32 m1 p.resultStatusPtr status with
    | none => (m1, [])
    | some mm => (mm, [WriteEvent.u32 p.resultStatusPtr status])
  let step3 : Memory × List WriteEvent :=
    match memWriteU32 step2.1 p.resultBodyLenPtr 0 with
    | none => (step2.1, [])
    | some mm => (mm, [WriteEvent.u32 p.resultBodyLenPtr 0])
  ⟨0, step3.1, evs1 ++ step2.2 ++ step3.2, some req⟩

/-- The post-read phase of `httpFetch` (lines 100–158), given the request
that was performed and the outcome delivered by the HTTP client. -/
def httpFetchRun (m : Memory) (p : FetchParams) (o : FetchOutcome)
    (req : HttpRequest) : FetchResult :=
  match o with
  | .reqError msg => httpFetchWriteErr m p msg 0 req
  | .doError msg => httpFetchWriteErr m p msg 0 req
  | .readBodyError status msg => httpFetchWriteErr m p msg status req
  | .success status body =>
    match memWriteU32 m p.resultStatusPtr status with
    | none => ⟨1, m, [], some req⟩
    | some m1 =>
      let ev0 := [WriteEvent.u32 p.resultStatusPtr status]
      match writeBytesResult m1 p.resultBodyPtr p.resultBodyCapacity p.resultBodyLenPtr body with
      | (true, m2, evs) =>
        match memWriteU32 m2 p.resultErrorLenPtr 0 with
        | none => ⟨0, m2, ev0 ++ evs, some req⟩
        | some m3 => ⟨0, m3, ev0 ++ evs ++ [WriteEvent.u32 p.resultErrorLenPtr 0], some req⟩
      | (false, m2, evs) =>
        let emsg := overflowMsg body.length p.resultBodyCapacity
        let r2 := writeStringResult m2 p.resultErrorPtr p.resultErrorCapacity
          p.resultErrorLenPtr emsg
        match memWriteU32 r2.2.1 p.resultBodyLenPtr 0 with
        | none => ⟨0, r2.2.1, ev0 ++ evs ++ r2.2.2, some req⟩
        | some m4 =>
          ⟨0, m4, ev0 ++ evs ++ r2.2.2 ++ [WriteEvent.u32 p.resultBodyLenPtr 0], some req⟩

/-- The `http_fetch` host function. -/
def httpFetch (m : Memory) (p : FetchParams) (o : FetchOutcome) : FetchResult :=
  match httpFetchReads m p with
  | none => ⟨1, m, [], none⟩
  | some req => httpFetchRun m p o req

/-- Sanity check: a 5-byte payload against capacity 2 is truncated, the
original length 5 is reported in the length cell, and the helper returns
`true` (so the caller takes its success branch). -/
theorem writeBytesResult_truncation_check :
    writeBytesResult ⟨List.replicate 16 0⟩ 0 2 8 [9, 8, 7, 6, 5] =
      (true, ⟨[9, 8, 0, 0, 0, 0, 0, 0, 5, 0, 0, 0, 0, 0, 0, 0]⟩,
        [WriteEvent.bytes 0 [9, 8], WriteEvent.u32 8 5]) := by decide

/-! ## `callMCPTool` response mapping

Model of the part of `callMCPTool` that runs after `CallTool` returns
(identical, line for line, in `MCPNative` and in both `MCPWasm`
iterations).  The `CallTool` result is an environment input; the session
state is threaded through so that "the call path does not tear down the
session" is expressible. -/

/-- A Go `error` value as observed by `callMCPTool`:
whether `errors.Is(err, io.ErrClosedPipe)` holds, and its message. -/
structure GoError where
  isClosedPipe : Bool
  msg : String
deriving DecidableEq

/-- `beginsWith l p` is true iff `p` is an initial segment of `l`
(Go `strings.HasPrefix` on the underlying characters). -/
def beginsWith : List Char → List Char → Bool
  | _, [] => true
  | [], _ :: _ => false
  | a :: l, b :: p => a == b && beginsWith l p

/-- `hasSeq l p` is true iff `p` occurs contiguously inside `l`. -/
def hasSeq : List Char → List Char → Bool
  | [], p => beginsWith [] p
  | a :: t, p => beginsWith (a :: t) p || hasSeq t p

/-- Go `strings.Contains s sub`. -/
def strContains (s sub : String) : Bool := hasSeq s.toList sub.toList

/-- Go `strings.HasPrefix s p`. -/
def strHasPre (s p : String) : Bool := beginsWith s.toList p.toList

/-- The broken-pipe/EOF classification on line 136 of
`mcp_process_native.go` (and its WASM twins). -/
def isCommunicationError (e : GoError) : Bool :=
  e.isClosedPipe || strContains e.msg "broken pipe" || strContains e.msg "EOF"

structure TextContent where
  text : String
deriving DecidableEq

/-- One content part of an MCP tool response; `textContent` is a nilable
pointer in Go. -/
structure ContentPart where
  textContent : Option TextContent
deriving DecidableEq

structure ToolResponse where
  content : List ContentPart
deriving DecidableEq

/-- Result of `currentClient.CallTool`: either an error or a (nilable)
response. -/
inductive CallToolResult
  | err (e : GoError)
  | ok (resp : Option ToolResponse)
deriving DecidableEq

/-- The errors `callMCPTool` can return.  Wrapped `fmt.Errorf("...: %w")`
errors keep their cause; `agents.ErrNotFound` is a payload-free
singleton, so every shape mapped to it yields the identical value. -/
inductive MCPError
  | commFault (cause : GoError)
  | callFault (tool : String) (cause : GoError)
  | errNotFound
deriving DecidableEq

/-- `errors.Unwrap` on the modelled errors. -/
def MCPError.unwrap : MCPError → Option GoError
  | .commFault c => some c
  | .callFault _ c => some c
  | .errNotFound => none

/-- The fixed sentinel checked with `strings.HasPrefix`. -/
def errSentinel : String := "handler returned an error:"

/-- Session state of `MCPNative`: the running command, the stdin write
end, and the client reference, each a nilable handle. -/
structure NativeState where
  cmd : Option Nat
  stdin : Option Nat
  client : Option Nat
deriving DecidableEq

/-- Lines 130–158 of `mcp_process_native.go`: classify a `CallTool`
error, otherwise map the response; no branch mutates the session state. -/
def MCPNative.handleCallResult (st : NativeState) (toolName : String)
    (r : CallToolResult) : String × Option MCPError × NativeState :=
  match r with
  | .err e =>
    if isCommunicationError e then ("", some (.commFault e), st)
    else ("", some (.callFault toolName e), st)
  | .ok resp =>
    match resp with
    | none => ("", some .errNotFound, st)
    | some rr =>
      match rr.content with
      | [] => ("", some .errNotFound, st)
      | c0 :: _ =>
        match c0.textContent with
        | none => ("", some .errNotFound, st)
        | some tc =>
          if tc.text = "" then ("", some .errNotFound, st)
          else if strHasPre tc.text errSentinel then ("", some .errNotFound, st)
          else (tc.text, none, st)

/-! ## WASM backend states and cleanup

Two iterations exist in the repository.  `MCPWasmPre` is the variant that
receives a pre-compiled module from the constructor (shared field
`preCompiledModule`); its per-session cleanup closes the stdin pipe and
the module instance only.  `MCPWasmCompile` is the variant that compiles
the module per session; its cleanup additionally closes the per-instance
compiled-module reference.  Neither touches the shared runtime or cache. -/

/-- A resource-close event, tagged by the kind of resource. -/
inductive Resource
  | stdinPipe (h : Nat)
  | processHandle (h : Nat)
  | moduleInstance (h : Nat)
  | compiledRef (h : Nat)
  | runtimeHandle (h : Nat)
  | cacheHandle (h : Nat)
  | preCompiledHandle (h : Nat)
deriving DecidableEq

/-- The close event for an optional handle: one event when the handle is
present, none otherwise. -/
def optRes (f : Nat → Resource) : Option Nat → List Resource
  | some h => [f h]
  | none => []

/-- `MCPNative.cleanupResources_locked`: close stdin, kill and wait the
process, drop the client reference. -/
def MCPNative.cleanupResources_locked (st : NativeState) : NativeState × List Resource :=
  let stdinStep : List Resource × Option Nat :=
    match st.stdin with
    | some h => ([Resource.stdinPipe h], none)
    | none => ([], none)
  let cmdStep : List Resource × Option Nat :=
    match st.cmd with
    | some h => ([Resource.processHandle h], none)
    | none => ([], none)
  (⟨cmdStep.2, stdinStep.2, none⟩, stdinStep.1 ++ cmdStep.1)

/-- The process-exit watcher body (lines 234–247 of
`mcp_process_native.go`): after `currentCmd.Wait()` returns, under the
lock, clean up only if `n.cmd == currentCmd` still holds. -/
def MCPNative.monitorExit (st : NativeState) (currentCmd : Nat) :
    NativeState × List Resource :=
  if st.cmd = some currentCmd then MCPNative.cleanupResources_locked st
  else (st, [])

/-- State of the pre-compiled `MCPWasm` iteration: instance-private
fields (`wasmModule`, `wasmCompiled`, `stdin`, `client`) and shared
fields (`wasmRuntime`, `wasmCache`, `preCompiledModule`). -/
structure WasmStatePre where
  wasmModule : Option Nat
  wasmCompiled : Option Nat
  stdin : Option Nat
  client : Option Nat
  wasmRuntime : Option Nat
  wasmCache : Option Nat
  preCompiledModule : Option Nat
deriving DecidableEq

/-- `cleanupResources_locked` of the pre-compiled iteration: close stdin
and the module instance, drop the client; `wasmCompiled`, the shared
runtime, cache and pre-compiled module are not touched. -/
def MCPWasmPre.cleanupResources_locked (st : WasmStatePre) : WasmStatePre × List Resource :=
  let stdinStep : List Resource × Option Nat :=
    match st.stdin with
    | some h => ([Resource.stdinPipe h], none)
    | none => ([], none)
  let modStep : List Resource × Option Nat :=
    match st.wasmModule with
    | some h => ([Resource.moduleInstance h], none)
    | none => ([], none)
  (⟨modStep.2, st.wasmCompiled, stdinStep.2, none,
      st.wasmRuntime, st.wasmCache, st.preCompiledModule⟩,
    stdinStep.1 ++ modStep.1)

/-- The module-exit watcher of the pre-compiled iteration (part_000
lines 284–300): on generation mismatch nothing is closed, since the
pre-compiled module is shared. -/
def MCPWasmPre.monitorExit (st : WasmStatePre) (instanceToMonitor : Nat) :
    WasmStatePre × List Resource :=
  if st.wasmModule = some instanceToMonitor then MCPWasmPre.cleanupResources_locked st
  else (st, [])

/-- `callMCPTool` response mapping of the pre-compiled WASM iteration
(part_000 lines 148–175) — textually identical to the native one. -/
def MCPWasmPre.handleCallResult (st : WasmStatePre) (toolName : String)
    (r : CallToolResult) : String × Option MCPError × WasmStatePre :=
  match r with
  | .err e =>
    if isCommunicationError e then ("", some (.commFault e), st)
    else ("", some (.callFault toolName e), st)
  | .ok resp =>
    match resp with
    | none => ("", some .errNotFound, st)
    | some rr =>
      match rr.content with
      | [] => ("", some .errNotFound, st)
      | c0 :: _ =>
        match c0.textContent with
        | none => ("", some .errNotFound, st)
        | some tc =>
          if tc.text = "" then ("", some .errNotFound, st)
          else if strHasPre tc.text errSentinel then ("", some .errNotFound, st)
          else (tc.text, none, st)

/-- State of the compile-per-session `MCPWasm` iteration: instance-private
fields (`wasmModule`, `wasmCompiled`, `stdin`, `client`) and shared
fields (`wasmRuntime`, `wasmCache`). -/
structure WasmStateCompile where
  wasmModule : Option Nat
  wasmCompiled : Option Nat
  stdin : Option Nat
  client : Option Nat
  wasmRuntime : Option Nat
  wasmCache : Option Nat
deriving DecidableEq

/-- `cleanupResources_locked` of the compile-per-session iteration
(part_000 lines 504–531): close stdin, the module instance and the
per-instance compiled reference, drop the client; the shared runtime and
cache are not touched. -/
def MCPWasmCompile.cleanupResources_locked (st : WasmStateCompile) :
    WasmStateCompile × List Resource :=
  let stdinStep : List Resource × Option Nat :=
    match st.stdin with
    | some h => ([Resource.stdinPipe h], none)
    | none => ([], none)
  let modStep : List Resource × Option Nat :=
    match st.wasmModule with
    | some h => ([Resource.moduleInstance h], none)
    | none => ([], none)
  let compStep : List Resource × Option Nat :=
    match st.wasmCompiled with
    | some h => ([Resource.compiledRef h], none)
    | none => ([], none)
  (⟨modStep.2, compStep.2, stdinStep.2, none, st.wasmRuntime, st.wasmCache⟩,
    stdinStep.1 ++ modStep.1 ++ compStep.1)

/-- The module-exit watcher of the compile-per-session iteration
(part_000 lines 632–651): on generation match run the full cleanup; on
mismatch, close only the compiled reference this watcher holds. -/
def MCPWasmCompile.monitorExit (st : WasmStateCompile) (instanceToMonitor : Nat)
    (compiledToClose : Option Nat) : WasmStateCompile × List Resource :=
  if st.wasmModule = some instanceToMonitor then
    MCPWasmCompile.cleanupResources_locked st
  else
    (st, match compiledToClose with
      | some c => [Resource.compiledRef c]
      | none => [])

/-! ## Helper lemmas -/

theorem httpFetchWriteErr_ret (m : Memory) (p : FetchParams) (msg : List Nat)
    (status : Nat) (req : HttpRequest) :
    (httpFetchWriteErr m p msg status req).ret = 0 := rfl

theorem httpFetchWriteErr_request (m : Memory) (p : FetchParams) (msg : List Nat)
    (status : Nat) (req : HttpRequest) :
    (httpFetchWriteErr m p msg status req).request = some req := rfl

/-- Every leaf of the post-read phase records the performed request. -/
theorem httpFetchRun_request (m : Memory) (p : FetchParams) (o : FetchOutcome)
    (req : HttpRequest) : (httpFetchRun m p o req).request = some req := by
  cases o with
  | reqError msg => exact httpFetchWriteErr_request ..
  | doError msg => exact httpFetchWriteErr_request ..
  | readBodyError status msg => exact httpFetchWriteErr_request ..
  | success status body =>
    simp only [httpFetchRun]
    split
    · rfl
    · split
      · split <;> rfl
      · split <;> rfl

/-- The only return-1 leaf of the post-read phase is the failed status
write, which leaves memory untouched and records no write. -/
theorem httpFetchRun_ret_one (m : Memory) (p : FetchParams) (o : FetchOutcome)
    (req : HttpRequest) (h : (httpFetchRun m p o req).ret = 1) :
    httpFetchRun m p o req = ⟨1, m, [], some req⟩ := by
  cases o with
  | reqError msg => rw [show httpFetchRun m p (.reqError msg) req = httpFetchWriteErr m p msg 0 req from rfl] at h ⊢; rw [httpFetchWriteErr_ret] at h; cases h
  | doError msg => rw [show httpFetchRun m p (.doError msg) req = httpFetchWriteErr m p msg 0 req from rfl] at h ⊢; rw [httpFetchWriteErr_ret] at h; cases h
  | readBodyError status msg => rw [show httpFetchRun m p (.readBodyError status msg) req = httpFetchWriteErr m p msg status req from rfl] at h ⊢; rw [httpFetchWriteErr_ret] at h; cases h
  | success status body =>
    simp only [httpFetchRun] at h ⊢
    split at h
    · rfl
    · split at h
      · split at h <;> cases h
      · split at h <;> cases h

/-- Application-level failures always return 0. -/
theorem httpFetchRun_ret_appErr (m : Memory) (p : FetchParams) (o : FetchOutcome)
    (req : HttpRequest) (h : o.isSuccess = false) :
    (httpFetchRun m p o req).ret = 0 := by
  cases o with
  | reqError msg => exact httpFetchWriteErr_ret ..
  | doError msg => exact httpFetchWriteErr_ret ..
  | readBodyError status msg => exact httpFetchWriteErr_ret ..
  | success status body => simp [FetchOutcome.isSuccess] at h

/-- The reading phase fails exactly when one of the guest-memory reads is
out of bounds. -/
theorem httpFetchReads_eq_none_iff (m : Memory) (p : FetchParams) :
    httpFetchReads m p = none ↔
      (memRead m p.urlPtr p.urlLen = none ∨ memRead m p.methodPtr p.methodLen = none ∨
        (0 < p.bodyLen ∧ memRead m p.bodyPtr p.bodyLen = none)) := by
  unfold httpFetchReads
  cases hu : memRead m p.urlPtr p.urlLen with
  | none => simp [hu]
  | some ub =>
    cases hm : memRead m p.methodPtr p.methodLen with
    | none => simp [hm]
    | some mb =>
      by_cases hb : 0 < p.bodyLen
      · cases hbd : memRead m p.bodyPtr p.bodyLen with
        | none => simp [hb, hbd]
        | some bb => simp [hb, hbd]
      · simp [hb]

/-- The timeout recorded in a successfully constructed request is the
resolved one. -/
theorem httpFetchReads_timeout (m : Memory) (p : FetchParams) (req : HttpRequest)
    (h : httpFetchReads m p = some req) :
    req.timeoutNs = resolveTimeoutNs p.timeoutMillis := by
  unfold httpFetchReads at h
  repeat' split at h
  all_goals cases h
  all_goals rfl

/-- The method recorded in a successfully constructed request is the read
method, with the empty method defaulted to `"GET"`. -/
theorem httpFetchReads_method (m : Memory) (p : FetchParams) (req : HttpRequest)
    (h : httpFetchReads m p = some req) :
    ∃ mb, memRead m p.methodPtr p.methodLen = some mb ∧
      req.method = (if mb = [] then GETbytes else mb) := by
  unfold httpFetchReads at h
  repeat' split at h
  all_goals cases h
  all_goals refine ⟨_, by assumption, ?_⟩
  all_goals simp_all

theorem resolveTimeoutNs_eq (t : Nat) :
    resolveTimeoutNs t = 1000000 * (if t = 0 then 30000 else (t : Int)) := by
  unfold resolveTimeoutNs
  rcases Nat.eq_zero_or_pos t with h | h
  · subst h; norm_num
  · have h1 : ¬((t : Int) * 1000000 ≤ 0) := by
      have : (1 : Int) ≤ (t : Int) := by exact_mod_cast h
      nlinarith
    rw [if_neg h1, if_neg (by omega)]
    ring

/-- If `httpFetch` performed an outbound request, it is the one built by
the reading phase. -/
theorem httpFetch_request_eq (m : Memory) (p : FetchParams) (o : FetchOutcome)
    (req : HttpRequest) (h : (httpFetch m p o).request = some req) :
    httpFetchReads m p = some req := by
  unfold httpFetch at h
  cases hx : httpFetchReads m p with
  | none => rw [hx] at h; simp at h
  | some req2 =>
    rw [hx] at h
    rw [httpFetchRun_request] at h
    rw [h]

/-! ## Concrete scenario inputs (used by witnesses and evaluations) -/

/-- 64 bytes of zeroed guest memory. -/
def memW : Memory := ⟨List.replicate 64 0⟩

/-- In-bounds parameters on `memW`: url at 0 (len 4), empty method, no
body, timeout 0, status cell 16, body region 20 (cap 8), body length
cell 32, error region 40 (cap 8), error length cell 56. -/
def pW : FetchParams := ⟨0, 4, 8, 0, 0, 0, 0, 16, 20, 8, 32, 40, 8, 56⟩

/-- The request `pW` produces on `memW`: method defaulted to GET, default
30s timeout. -/
def reqW : HttpRequest := ⟨GETbytes, List.replicate 4 0, none, 30000000000⟩

/-- `memW` with the ASCII bytes of `"POS"` at offsets 8–10. -/
def memPOS : Memory := ⟨List.replicate 8 0 ++ [80, 79, 83] ++ List.replicate 53 0⟩

/-- Like `pW` but with a non-empty method (3 bytes at offset 8) and a
positive timeout. -/
def pPOS : FetchParams := ⟨0, 4, 8, 3, 0, 0, 250, 16, 20, 8, 32, 40, 8, 56⟩

/-- The request `pPOS` produces on `memPOS`. -/
def reqPOS : HttpRequest := ⟨[80, 79, 83], List.replicate 4 0, none, 250000000⟩

/-- Parameters whose url read is out of bounds on `memW`. -/
def pOOB : FetchParams := ⟨0, 100, 0, 0, 0, 0, 0, 0, 0, 0, 0, 0, 0, 0⟩

/-- Body-overflow scenario: status cell 0, body region 4 (cap 2), body
length cell 8, error region 12 (cap 16), error length cell 32, url at 40
(len 3), empty method, no body, timeout 5. -/
def pC1 : FetchParams := ⟨40, 3, 0, 0, 0, 0, 5, 0, 4, 2, 8, 12, 16, 32⟩

/-! ## Claim theorems -/

/-- C8: for every `httpFetch` call that performs the outbound request,
the effective timeout is 30000 ms when the guest-supplied `timeoutMillis`
is 0 (the only non-positive value of the unsigned parameter), and
`timeoutMillis` ms otherwise. -/
theorem httpFetch_timeout_default (m : Memory) (p : FetchParams) (o : FetchOutcome)
    (req : HttpRequest) (h : (httpFetch m p o).request = some req) :
    req.timeoutNs =
      1000000 * (if p.timeoutMillis = 0 then 30000 else (p.timeoutMillis : Int)) := by
  have hr := httpFetch_request_eq m p o req h
  rw [httpFetchReads_timeout m p req hr]
  exact resolveTimeoutNs_eq p.timeoutMillis

theorem httpFetch_timeout_default_witness :
    (reqW.timeoutNs =
      1000000 * (if pW.timeoutMillis = 0 then 30000 else (pW.timeoutMillis : Int))) ∧
    (reqPOS.timeoutNs =
      1000000 * (if pPOS.timeoutMillis = 0 then 30000 else (pPOS.timeoutMillis : Int))) :=
  ⟨httpFetch_timeout_default memW pW (FetchOutcome.success 200 [1]) reqW (by decide),
   httpFetch_timeout_default memPOS pPOS (FetchOutcome.success 200 [1]) reqPOS (by decide)⟩

/-- C9: for every `httpFetch` call that performs the outbound request,
an empty method string read from guest memory is replaced by `"GET"` and
a non-empty one is used as given. -/
theorem httpFetch_empty_method_GET (m : Memory) (p : FetchParams) (o : FetchOutcome)
    (req : HttpRequest) (mb : List Nat) (h : (httpFetch m p o).request = some req)
    (hm : memRead m p.methodPtr p.methodLen = some mb) :
    req.method = (if mb = [] then GETbytes else mb) := by
  have hr := httpFetch_request_eq m p o req h
  obtain ⟨mb2, hm2, hmeq⟩ := httpFetchReads_method m p req hr
  rw [hm] at hm2
  cases hm2
  exact hmeq

theorem httpFetch_empty_method_GET_witness :
    (reqW.method = (if ([] : List Nat) = [] then GETbytes else [])) ∧
    (reqPOS.method = (if [80, 79, 83] = ([] : List Nat) then GETbytes else [80, 79, 83])) :=
  ⟨httpFetch_empty_method_GET memW pW (FetchOutcome.success 200 [1]) reqW []
      (by decide) (by decide),
   httpFetch_empty_method_GET memPOS pPOS (FetchOutcome.success 200 [1]) reqPOS [80, 79, 83]
      (by decide) (by decide)⟩

/-- C1 (evaluation at the failing input): a transport-successful response
of 5 bytes against a body capacity of 2 does NOT take the
"exceeds buffer capacity" error path.  `writeBytesResult` truncates and
returns `true`, so `httpFetch` returns 0 with the first 2 bytes copied,
the body length cell holding the true size 5, and the error length cell
written as 0 — no overflow error message is populated, contradicting the
claim (and the comment and error message inside `httpFetch` itself). -/
theorem httpFetch_capacity_overflow_eval :
    (httpFetch memW pC1 (FetchOutcome.success 200 [9, 8, 7, 6, 5])).ret = 0 ∧
    memRead (httpFetch memW pC1 (FetchOutcome.success 200 [9, 8, 7, 6, 5])).mem 4 2 =
      some [9, 8] ∧
    memRead (httpFetch memW pC1 (FetchOutcome.success 200 [9, 8, 7, 6, 5])).mem 8 4 =
      some (u32le 5) ∧
    memRead (httpFetch memW pC1 (FetchOutcome.success 200 [9, 8, 7, 6, 5])).mem 32 4 =
      some (u32le 0) ∧
    memRead (httpFetch memW pC1 (FetchOutcome.success 200 [9, 8, 7, 6, 5])).mem 12 16 =
      some (List.replicate 16 0) := by decide

/-- C6: if reading the url, method or (when `bodyLen > 0`) body from
guest memory fails, `httpFetch` returns 1 with memory untouched, no
writes performed and no request made; every return of 1 performs no
write; return 0 implies the inputs were read and the request performed;
and application-level failures (request construction, transport, body
read) always return 0, so code 1 is disjoint from them. -/
theorem httpFetch_host_fault_characterization (m : Memory) (p : FetchParams)
    (o : FetchOutcome) :
    ((memRead m p.urlPtr p.urlLen = none ∨ memRead m p.methodPtr p.methodLen = none ∨
        (0 < p.bodyLen ∧ memRead m p.bodyPtr p.bodyLen = none)) →
      httpFetch m p o = ⟨1, m, [], none⟩) ∧
    ((httpFetch m p o).ret = 1 →
      (httpFetch m p o).writes = [] ∧ (httpFetch m p o).mem = m) ∧
    ((httpFetch m p o).ret = 0 → (httpFetch m p o).request.isSome = true) ∧
    ((httpFetch m p o).request.isSome = true → o.isSuccess = false →
      (httpFetch m p o).ret = 0) := by
  refine ⟨?_, ?_, ?_, ?_⟩
  · intro h
    have hn : httpFetchReads m p = none := (httpFetchReads_eq_none_iff m p).2 h
    simp [httpFetch, hn]
  · intro h
    cases hx : httpFetchReads m p with
    | none =>
      have he : httpFetch m p o = ⟨1, m, [], none⟩ := by simp [httpFetch, hx]
      rw [he]
      exact ⟨rfl, rfl⟩
    | some req =>
      have he : httpFetch m p o = httpFetchRun m p o req := by simp [httpFetch, hx]
      rw [he] at h ⊢
      rw [httpFetchRun_ret_one m p o req h]
      exact ⟨rfl, rfl⟩
  · intro h
    cases hx : httpFetchReads m p with
    | none =>
      have he : httpFetch m p o = ⟨1, m, [], none⟩ := by simp [httpFetch, hx]
      rw [he] at h
      cases h
    | some req =>
      have he : httpFetch m p o = httpFetchRun m p o req := by simp [httpFetch, hx]
      rw [he, httpFetchRun_request]
      rfl
  · intro h1 h2
    cases hx : httpFetchReads m p with
    | none =>
      have he : httpFetch m p o = ⟨1, m, [], none⟩ := by simp [httpFetch, hx]
      rw [he] at h1
      simp at h1
    | some req =>
      have he : httpFetch m p o = httpFetchRun m p o req := by simp [httpFetch, hx]
      rw [he]
      exact httpFetchRun_ret_appErr m p o req h2

theorem httpFetch_host_fault_characterization_witness :
    httpFetch memW pOOB (FetchOutcome.success 200 []) = ⟨1, memW, [], none⟩ ∧
    ((httpFetch memW pOOB (FetchOutcome.success 200 [])).writes = [] ∧
      (httpFetch memW pOOB (FetchOutcome.success 200 [])).mem = memW) ∧
    (httpFetch memW pW (FetchOutcome.doError [65])).request.isSome = true ∧
    (httpFetch memW pW (FetchOutcome.doError [65])).ret = 0 :=
  ⟨(httpFetch_host_fault_characterization memW pOOB (FetchOutcome.success 200 [])).1
      (Or.inl (by decide)),
   (httpFetch_host_fault_characterization memW pOOB (FetchOutcome.success 200 [])).2.1
      (by decide),
   (httpFetch_host_fault_characterization memW pW (FetchOutcome.doError [65])).2.2.1
      (by decide),
   (httpFetch_host_fault_characterization memW pW (FetchOutcome.doError [65])).2.2.2
      (by decide) (by decide)⟩

/-- C2: a crash watcher that fires performs teardown exactly when the
process/module it monitored is still the one currently recorded by the
supervisor; when the session has been replaced, the native watcher and
the pre-compiled WASM watcher close nothing and leave the state
untouched. -/
theorem watcher_generation_check :
    (∀ (st : NativeState) (currentCmd : Nat),
      (st.cmd ≠ some currentCmd → MCPNative.monitorExit st currentCmd = (st, [])) ∧
      (st.cmd = some currentCmd →
        MCPNative.monitorExit st currentCmd = MCPNative.cleanupResources_locked st)) ∧
    (∀ (st : WasmStatePre) (instanceToMonitor : Nat),
      (st.wasmModule ≠ some instanceToMonitor →
        MCPWasmPre.monitorExit st instanceToMonitor = (st, [])) ∧
      (st.wasmModule = some instanceToMonitor →
        MCPWasmPre.monitorExit st instanceToMonitor =
          MCPWasmPre.cleanupResources_locked st)) := by
  constructor
  · intro st currentCmd
    constructor <;> intro h <;> simp [MCPNative.monitorExit, h]
  · intro st instanceToMonitor
    constructor <;> intro h <;> simp [MCPWasmPre.monitorExit, h]

/-- A live native session with handles 1 (process), 2 (stdin pipe),
3 (client). -/
def stN1 : NativeState := ⟨some 1, some 2, some 3⟩

/-- A live pre-compiled WASM session: module 1, stdin 2, client 3, shared
runtime 4, cache 5, pre-compiled module 6 (no per-instance compiled
reference in this iteration). -/
def stW1 : WasmStatePre := ⟨some 1, none, some 2, some 3, some 4, some 5, some 6⟩

theorem watcher_generation_check_witness :
    MCPNative.monitorExit stN1 7 = (stN1, []) ∧
    MCPNative.monitorExit stN1 1 = MCPNative.cleanupResources_locked stN1 ∧
    MCPWasmPre.monitorExit stW1 7 = (stW1, []) ∧
    MCPWasmPre.monitorExit stW1 1 = MCPWasmPre.cleanupResources_locked stW1 :=
  ⟨(watcher_generation_check.1 stN1 7).1 (by decide),
   (watcher_generation_check.1 stN1 1).2 (by decide),
   (watcher_generation_check.2 stW1 7).1 (by decide),
   (watcher_generation_check.2 stW1 1).2 (by decide)⟩

/-- C3: in the compile-per-session WASM iteration, a module-exit watcher
that loses the generation race still closes exactly the per-instance
compiled reference it holds, and leaves the (new) session state
untouched. -/
theorem wasm_loser_releases_compiled (st : WasmStateCompile) (i c : Nat)
    (h : st.wasmModule ≠ some i) :
    MCPWasmCompile.monitorExit st i (some c) = (st, [Resource.compiledRef c]) := by
  simp [MCPWasmCompile.monitorExit, h]

/-- A live compile-per-session WASM session: module 1, compiled 2,
stdin 3, client 4, shared runtime 5, cache 6. -/
def stC1 : WasmStateCompile := ⟨some 1, some 2, some 3, some 4, some 5, some 6⟩

theorem wasm_loser_releases_compiled_witness :
    MCPWasmCompile.monitorExit stC1 9 (some 2) = (stC1, [Resource.compiledRef 2]) :=
  wasm_loser_releases_compiled stC1 9 2 (by decide)

/-- C7 (counterexample): the compile-per-session cleanup closes more than
the claimed enumeration {stdin pipe, module instance, client reference}:
it also closes the per-instance compiled module reference. -/
theorem wasm_cleanup_only_enumerated_false :
    ((MCPWasmCompile.cleanupResources_locked stC1).2.all
      (fun r => match r with
        | Resource.stdinPipe _ => true
        | Resource.moduleInstance _ => true
        | _ => false)) = false := by decide

/-- C7 (amended): per-session cleanup in both WASM iterations closes only
instance-private resources — the stdin pipe end, the module instance,
and (in the compile-per-session iteration) the per-instance compiled
reference — drops the client reference, and leaves the shared runtime,
the shared compilation cache, and the shared pre-compiled module
unchanged. -/
theorem wasm_cleanup_frame (st1 : WasmStatePre) (st2 : WasmStateCompile) :
    ((MCPWasmPre.cleanupResources_locked st1).1.wasmRuntime = st1.wasmRuntime ∧
      (MCPWasmPre.cleanupResources_locked st1).1.wasmCache = st1.wasmCache ∧
      (MCPWasmPre.cleanupResources_locked st1).1.preCompiledModule = st1.preCompiledModule ∧
      (MCPWasmPre.cleanupResources_locked st1).1.wasmCompiled = st1.wasmCompiled ∧
      (MCPWasmPre.cleanupResources_locked st1).1.client = none ∧
      (MCPWasmPre.cleanupResources_locked st1).2 =
        optRes Resource.stdinPipe st1.stdin ++
          optRes Resource.moduleInstance st1.wasmModule) ∧
    ((MCPWasmCompile.cleanupResources_locked st2).1.wasmRuntime = st2.wasmRuntime ∧
      (MCPWasmCompile.cleanupResources_locked st2).1.wasmCache = st2.wasmCache ∧
      (MCPWasmCompile.cleanupResources_locked st2).1.client = none ∧
      (MCPWasmCompile.cleanupResources_locked st2).2 =
        optRes Resource.stdinPipe st2.stdin ++
          optRes Resource.moduleInstance st2.wasmModule ++
          optRes Resource.compiledRef st2.wasmCompiled) := by
  constructor
  · obtain ⟨a, b, c, d, e, f, g⟩ := st1
    cases c <;> cases a <;>
      simp [MCPWasmPre.cleanupResources_locked, optRes]
  · obtain ⟨a, b, c, d, e, f⟩ := st2
    cases c <;> cases a <;> cases b <;>
      simp [MCPWasmCompile.cleanupResources_locked, optRes]

/-- Following the spec's enumeration (§4.5): a response maps to not-found
iff it is nil, or has no content parts, or its first part has no text
content, or that text is empty, or the text begins with the
`"handler returned an error:"` sentinel. -/
def specNotFoundShape (resp : Option ToolResponse) : Bool :=
  match resp with
  | none => true
  | some rr =>
    match rr.content with
    | [] => true
    | c0 :: _ =>
      match c0.textContent with
      | none => true
      | some tc => tc.text == "" || strHasPre tc.text errSentinel

/-- C4: both backends map a transport-successful tool response to the
single payload-free `agents.ErrNotFound` value exactly on the spec's five
shapes, returning the identical triple (empty text, not-found, unchanged
state) in each case — no structural distinction between the causes. -/
theorem callTool_notFound_characterization (stN : NativeState) (stW : WasmStatePre)
    (tool : String) (resp : Option ToolResponse) :
    (specNotFoundShape resp = true →
      MCPNative.handleCallResult stN tool (.ok resp) =
        ("", some MCPError.errNotFound, stN) ∧
      MCPWasmPre.handleCallResult stW tool (.ok resp) =
        ("", some MCPError.errNotFound, stW)) ∧
    ((MCPNative.handleCallResult stN tool (.ok resp)).2.1 = some MCPError.errNotFound →
      specNotFoundShape resp = true) ∧
    ((MCPWasmPre.handleCallResult stW tool (.ok resp)).2.1 = some MCPError.errNotFound →
      specNotFoundShape resp = true) := by
  cases resp with
  | none =>
    simp [specNotFoundShape, MCPNative.handleCallResult, MCPWasmPre.handleCallResult]
  | some rr =>
    obtain ⟨content⟩ := rr
    cases content with
    | nil =>
      simp [specNotFoundShape, MCPNative.handleCallResult, MCPWasmPre.handleCallResult]
    | cons c0 rest =>
      obtain ⟨tcOpt⟩ := c0
      cases tcOpt with
      | none =>
        simp [specNotFoundShape, MCPNative.handleCallResult, MCPWasmPre.handleCallResult]
      | some tc =>
        by_cases h1 : tc.text = ""
        · simp [specNotFoundShape, MCPNative.handleCallResult,
            MCPWasmPre.handleCallResult, h1]
        · by_cases h2 : strHasPre tc.text errSentinel = true
          · simp [specNotFoundShape, MCPNative.handleCallResult,
              MCPWasmPre.handleCallResult, h1, h2]
          · simp [specNotFoundShape, MCPNative.handleCallResult,
              MCPWasmPre.handleCallResult, h1, h2]

/-- An ordinary successful tool response with one text part. -/
def respBio : Option ToolResponse := some ⟨[⟨some ⟨"A bio."⟩⟩]⟩

/-- A response whose first part carries the error sentinel text. -/
def respErr : Option ToolResponse :=
  some ⟨[⟨some ⟨"handler returned an error: boom"⟩⟩]⟩

theorem callTool_notFound_characterization_witness :
    (MCPNative.handleCallResult stN1 "get_artist_biography" (.ok none) =
        ("", some MCPError.errNotFound, stN1) ∧
      MCPWasmPre.handleCallResult stW1 "get_artist_biography" (.ok none) =
        ("", some MCPError.errNotFound, stW1)) ∧
    (MCPNative.handleCallResult stN1 "get_artist_biography" (.ok respErr) =
        ("", some MCPError.errNotFound, stN1) ∧
      MCPWasmPre.handleCallResult stW1 "get_artist_biography" (.ok respErr) =
        ("", some MCPError.errNotFound, stW1)) ∧
    specNotFoundShape (some ⟨[]⟩) = true :=
  ⟨(callTool_notFound_characterization stN1 stW1 "get_artist_biography" none).1
      (by decide),
   (callTool_notFound_characterization stN1 stW1 "get_artist_biography" respErr).1
      (by decide),
   (callTool_notFound_characterization stN1 stW1 "get_artist_biography" (some ⟨[]⟩)).2.1
      (by decide)⟩

/-- C5: a `CallTool` failure of the broken-pipe/EOF class returns the
empty string and a distinct communication error wrapping the underlying
cause (recoverable by unwrapping), with the session state untouched (no
teardown on the call path; the watcher resets state). -/
theorem callTool_communication_fault (stN : NativeState) (stW : WasmStatePre)
    (tool : String) (e : GoError) (h : isCommunicationError e = true) :
    MCPNative.handleCallResult stN tool (.err e) = ("", some (MCPError.commFault e), stN) ∧
    MCPWasmPre.handleCallResult stW tool (.err e) = ("", some (MCPError.commFault e), stW) ∧
    MCPError.unwrap (MCPError.commFault e) = some e := by
  refine ⟨?_, ?_, rfl⟩ <;>
    simp [MCPNative.handleCallResult, MCPWasmPre.handleCallResult, h]

/-- A closed-pipe error as `callMCPTool` observes it. -/
def eClosedPipe : GoError := ⟨true, "io: read/write on closed pipe"⟩

theorem callTool_communication_fault_witness :
    MCPNative.handleCallResult stN1 "get_artist_url" (.err eClosedPipe) =
      ("", some (MCPError.commFault eClosedPipe), stN1) ∧
    MCPWasmPre.handleCallResult stW1 "get_artist_url" (.err eClosedPipe) =
      ("", some (MCPError.commFault eClosedPipe), stW1) ∧
    MCPError.unwrap (MCPError.commFault eClosedPipe) = some eClosedPipe :=
  callTool_communication_fault stN1 stW1 "get_artist_url" eClosedPipe (by decide)

/-- C10: whenever `callMCPTool`'s post-call processing returns a nil
error, the returned text is non-empty and does not begin with the
`"handler returned an error:"` sentinel, in both backends. -/
theorem callTool_success_nonempty (stN : NativeState) (stW : WasmStatePre)
    (tool : String) (r : CallToolResult) :
    ((MCPNative.handleCallResult stN tool r).2.1 = none →
      (MCPNative.handleCallResult stN tool r).1 ≠ "" ∧
      strHasPre (MCPNative.handleCallResult stN tool r).1 errSentinel = false) ∧
    ((MCPWasmPre.handleCallResult stW tool r).2.1 = none →
      (MCPWasmPre.handleCallResult stW tool r).1 ≠ "" ∧
      strHasPre (MCPWasmPre.handleCallResult stW tool r).1 errSentinel = false) := by
  cases r with
  | err e =>
    by_cases h : isCommunicationError e = true <;>
      simp [MCPNative.handleCallResult, MCPWasmPre.handleCallResult, h]
  | ok resp =>
    cases resp with
    | none => simp [MCPNative.handleCallResult, MCPWasmPre.handleCallResult]
    | some rr =>
      obtain ⟨content⟩ := rr
      cases content with
      | nil => simp [MCPNative.handleCallResult, MCPWasmPre.handleCallResult]
      | cons c0 rest =>
        obtain ⟨tcOpt⟩ := c0
        cases tcOpt with
        | none => simp [MCPNative.handleCallResult, MCPWasmPre.handleCallResult]
        | some tc =>
          by_cases h1 : tc.text = ""
          · simp [MCPNative.handleCallResult, MCPWasmPre.handleCallResult, h1]
          · by_cases h2 : strHasPre tc.text errSentinel = true
            · simp [MCPNative.handleCallResult, MCPWasmPre.handleCallResult, h1, h2]
            · simp [MCPNative.handleCallResult, MCPWasmPre.handleCallResult, h1, h2,
                Bool.not_eq_true] at *

theorem callTool_success_nonempty_witness :
    ((MCPNative.handleCallResult stN1 "get_artist_biography" (.ok respBio)).1 ≠ "" ∧
      strHasPre (MCPNative.handleCallResult stN1 "get_artist_biography"
        (.ok respBio)).1 errSentinel = false) :=
  (callTool_success_nonempty stN1 stW1 "get_artist_biography" (.ok respBio)).1 (by decide)
